import Mathlib

/- Verification of the marvel-tracker repository's data-normalization
script (the node script bundled in src/App.jsx after the React component)
and of the tracker UI's counter updaters (App.jsx / the second UI variant).

The script fetches card data, classifies records by `type_code`,
deduplicates by display name, repairs villain hit points from a curated
override table (`VILLAIN_STATS`), and writes six collections to a JSON
artifact.  We embed that logic shallowly: JavaScript values appearing in
raw records become an inductive `JsVal`, the fetch helper becomes a total
function over a model of HTTP responses, and the aggregation loop becomes
a fold over the fetched card lists. -/

namespace Marvel

/-- JavaScript values as they occur in raw card fields: numbers (modelled
as integers, with NaN kept separate), strings, booleans, null and
undefined. -/
inductive JsVal where
  | num (n : Int)
  | nan
  | str (s : String)
  | bool (b : Bool)
  | null
  | undefined
deriving DecidableEq

/-- JavaScript truthiness of a `JsVal`. -/
def JsVal.truthy : JsVal → Bool
  | .num n => n != 0
  | .nan => false
  | .str s => s != ""
  | .bool b => b
  | .null => false
  | .undefined => false

/-- JavaScript `a || b` (returns `a` verbatim when truthy, else `b`). -/
def jsOr (a b : JsVal) : JsVal := if a.truthy then a else b

/-- JavaScript `String(v)` on the values of `JsVal`. -/
def JsVal.toJsString : JsVal → String
  | .num n => toString n
  | .nan => "NaN"
  | .str s => s
  | .bool b => if b then "true" else "false"
  | .null => "null"
  | .undefined => "undefined"

/-- `String(h).replace(/[^0-9]/g, '')` — the characters kept by the
digit-stripping regex. -/
def stripNonDigits (s : String) : List Char := s.data.filter Char.isDigit

/-- `parseInt` applied to the digit-only remainder: NaN (`none`) when the
string is empty, otherwise its decimal value. -/
def parseIntDigits : List Char → Option Nat
  | [] => none
  | ds => some (ds.foldl (fun a c => a * 10 + (c.toNat - 48)) 0)

/-- `parseInt(String(h).replace(/[^0-9]/g, '')) || 0` — the health parser
used for minions, heroes and allies. -/
def parseHealth (h : JsVal) : Nat := (parseIntDigits (stripNonDigits h.toJsString)).getD 0

/-- A raw card record as delivered by the upstream JSON documents.
`type_code`, `name` and `code` are strings in every record the script
distinguishes; the remaining fields can be arbitrary JavaScript values. -/
structure RawCard where
  type_code : String
  name : String
  code : String
  card_set_code : JsVal
  health : JsVal
  base_threat : JsVal
  threat : JsVal
  acceleration : JsVal
  base_threat_fixed : JsVal
deriving DecidableEq

/-- The value stored in a villain entry's `stages` field.  The script
computes it as `VILLAIN_STATS[card.name]`, a JavaScript property access
that walks the prototype chain: an own key of the table yields its stage
array, but a name colliding with an `Object.prototype` property name
("toString", "constructor", "__proto__", ...) yields the truthy inherited
member, which the `if (!goldenStats)` fallback then fails to replace.
`arr` covers an own table entry or the `[15, 15, 15]` fallback;
`inherited` marks the inherited `Object.prototype` member obtained for
the given name. -/
inductive StagesVal where
  | arr (stages : List Nat)
  | inherited (name : String)
deriving DecidableEq

/-- An entry of the output `villains` collection. -/
structure Villain where
  name : String
  code : String
  set_code : JsVal
  stages : StagesVal
deriving DecidableEq

/-- An entry of the output `schemes` collection. -/
structure Scheme where
  name : String
  code : String
  set_code : JsVal
  init : JsVal
  target : JsVal
  accel : JsVal
  fixed : JsVal
deriving DecidableEq

/-- An entry of the output `side_schemes` collection. -/
structure SideScheme where
  name : String
  init : JsVal
  code : String
deriving DecidableEq

/-- An entry of the `minions`, `heroes` or `allies` collections
(`{ name, hp, code }`). -/
structure HpCard where
  name : String
  hp : Nat
  code : String
deriving DecidableEq

/-- The in-memory aggregate `db` built by the script. -/
structure Db where
  villains : List Villain
  schemes : List Scheme
  heroes : List HpCard
  side_schemes : List SideScheme
  minions : List HpCard
  allies : List HpCard
deriving DecidableEq

/-- `const db = { villains: [], schemes: [], heroes: [], side_schemes: [],
minions: [], allies: [] }`. -/
def emptyDb : Db := ⟨[], [], [], [], [], []⟩

/-- The GOLDEN STATS MAP: hand-maintained `[Stage I, Stage II, Stage III]`
HP per villain name, copied verbatim from the script. -/
def VILLAIN_STATS : List (String × List Nat) := [
  ("Rhino", [14, 15, 16]),
  ("Klaw", [12, 18, 22]),
  ("Ultron", [17, 22, 27]),
  ("Green Goblin", [14, 17, 20]),
  ("Norman Osborn", [14, 17, 20]),
  ("Wrecking Crew", [14, 14, 14]),
  ("Wrecker", [14, 15, 16]),
  ("Bulldozer", [12, 13, 14]),
  ("Piledriver", [11, 12, 13]),
  ("Thunderball", [13, 14, 15]),
  ("Crossbones", [12, 16, 17]),
  ("Absorbing Man", [13, 14, 15]),
  ("Taskmaster", [13, 16, 18]),
  ("Zola", [12, 14, 15]),
  ("Red Skull", [16, 20, 22]),
  ("Kang", [12, 15, 18]),
  ("Drang", [13, 14, 15]),
  ("Collector", [11, 13, 13]),
  ("Nebula", [14, 17, 20]),
  ("Ronan the Accuser", [14, 18, 22]),
  ("Ebony Maw", [12, 16, 18]),
  ("Proxima Midnight", [12, 14, 16]),
  ("Corvus Glaive", [13, 15, 17]),
  ("Thanos", [20, 24, 28]),
  ("Hela", [8, 10, 12]),
  ("Loki", [20, 20, 20]),
  ("The Hood", [14, 16, 18]),
  ("Sandman", [14, 16, 18]),
  ("Venom", [15, 18, 20]),
  ("Mysterio", [12, 14, 16]),
  ("Venom Goblin", [15, 18, 21]),
  ("Sabretooth", [14, 16, 18]),
  ("Sentinel", [15, 18, 20]),
  ("Master Mold", [16, 18, 20]),
  ("Magneto", [18, 20, 22]),
  ("MaGog", [14, 16, 18]),
  ("Spiral", [14, 16, 18]),
  ("Mojo", [16, 18, 20]),
  ("Juggernaut", [16, 18, 20]),
  ("Mister Sinister", [14, 16, 18]),
  ("Stryfe", [16, 18, 20]),
  ("Unus", [13, 15, 17]),
  ("Four Horsemen", [12, 12, 12]),
  ("Apocalypse", [18, 20, 22]),
  ("Dark Beast", [14, 16, 18]),
  ("Enchantress", [14, 16, 18]),
  ("Arcade", [14, 16, 18])]

/-- The property names every plain object literal inherits from
`Object.prototype`; `VILLAIN_STATS[name]` yields a truthy value (a
function, or the prototype object itself for "__proto__") at each of
these even though the table has no such own key. -/
def OBJECT_PROTO_KEYS : List String :=
  ["constructor", "hasOwnProperty", "isPrototypeOf", "propertyIsEnumerable",
   "toLocaleString", "toString", "valueOf", "__defineGetter__",
   "__defineSetter__", "__lookupGetter__", "__lookupSetter__", "__proto__"]

/-- `let goldenStats = VILLAIN_STATS[card.name]; if (!goldenStats)
goldenStats = [15, 15, 15]` — the property access walks the prototype
chain: an own key yields its (truthy, non-empty) entry verbatim; a name
colliding with an `Object.prototype` property name yields the truthy
inherited member, so the `!goldenStats` fallback is skipped; only
otherwise is the access `undefined` (falsy) and replaced by the
fallback. -/
def goldenOf (name : String) : StagesVal :=
  match VILLAIN_STATS.lookup name with
  | some st => .arr st
  | none =>
    if name ∈ OBJECT_PROTO_KEYS then .inherited name
    else .arr [15, 15, 15]

/-- `card.card_set_code || "unknown"`. -/
def setCodeOf (c : RawCard) : JsVal := jsOr c.card_set_code (.str "unknown")

/-- Replace the first element satisfying `p` by its image under `f`
(models `array.find` followed by in-place mutation of the found object). -/
def updateFirst (p : α → Bool) (f : α → α) : List α → List α
  | [] => []
  | x :: xs => if p x then f x :: xs else x :: updateFirst p f xs

/-- The scheme entry pushed by the `main_scheme` branch. -/
def mkScheme (c : RawCard) : Scheme :=
  { name := c.name
    code := c.code
    set_code := setCodeOf c
    init := jsOr c.base_threat (.num 0)
    target := jsOr c.threat (.num 0)
    accel := jsOr c.acceleration (.num 0)
    fixed := jsOr c.base_threat_fixed (.bool false) }

/-- One iteration of the encounter-card loop: the villain / main_scheme /
side_scheme / minion else-if chain. -/
def processEnc (db : Db) (c : RawCard) : Db :=
  if c.type_code = "villain" then
    if db.villains.any (fun v => v.name = c.name) then
      { db with villains :=
          (updateFirst (fun v => v.name = c.name)
            (fun v => { v with stages := goldenOf c.name }) db.villains) }
    else
      { db with villains := db.villains ++
          [{ name := c.name, code := c.code, set_code := setCodeOf c,
             stages := goldenOf c.name }] }
  else if c.type_code = "main_scheme" then
    if (c.threat ≠ JsVal.undefined ∧ c.threat ≠ JsVal.null) ∨
        c.base_threat_fixed = JsVal.bool true then
      { db with schemes := db.schemes ++ [mkScheme c] }
    else db
  else if c.type_code = "side_scheme" then
    if db.side_schemes.any (fun s => s.name = c.name) then db
    else
      { db with side_schemes := db.side_schemes ++
          [{ name := c.name, init := jsOr c.base_threat (.num 0), code := c.code }] }
  else if c.type_code = "minion" then
    if db.minions.any (fun m => m.name = c.name) then db
    else
      { db with minions := db.minions ++
          [{ name := c.name, hp := parseHealth c.health, code := c.code }] }
  else db

/-- The first guarded push of the player-card loop:
`if (card.type_code === 'hero' && !db.heroes.some(...)) db.heroes.push(...)`. -/
def addHero (db : Db) (c : RawCard) : Db :=
  if c.type_code = "hero" ∧ ¬ db.heroes.any (fun h => h.name = c.name) then
    { db with heroes := db.heroes ++
        [{ name := c.name, hp := parseHealth c.health, code := c.code }] }
  else db

/-- The second guarded push of the player-card loop:
`if (card.type_code === 'ally' && !db.allies.some(...)) db.allies.push(...)`. -/
def addAlly (db : Db) (c : RawCard) : Db :=
  if c.type_code = "ally" ∧ ¬ db.allies.any (fun a => a.name = c.name) then
    { db with allies := db.allies ++
        [{ name := c.name, hp := parseHealth c.health, code := c.code }] }
  else db

/-- One iteration of the player-card loop: the two independent `hero` and
`ally` guarded pushes, in source order. -/
def processPlayer (db : Db) (c : RawCard) : Db := addAlly (addHero db c) c

/-- A model of the network's answer to one request: a transport error, or
an HTTP response carrying a status code, an optional redirect (the
`location` header together with the answer the redirected request would
get), and a body that either parses as a JSON array of `α` or fails to
parse (`none`). -/
inductive NetResponse (α : Type) where
  | err : NetResponse α
  | resp (status : Nat) (location : Option (NetResponse α)) (body : Option (List α)) :
      NetResponse α

/-- The `fetchJson` helper: resolves `[]` on a transport error, follows a
3xx redirect when a location is present, otherwise resolves the parsed
body, or `[]` when `JSON.parse` throws. -/
def fetchJson : NetResponse α → List α
  | .err => []
  | .resp status location body =>
    if 300 ≤ status ∧ status < 400 then
      match location with
      | some next => fetchJson next
      | none => body.getD []
    else body.getD []

/-- An element of the pack index (`packsData`): the script only reads its
`code` field. -/
structure PackEntry where
  code : String
deriving DecidableEq

/-- The fixed external world of one run: the response to the pack-index
request and, per pack code, the responses to the encounter-document and
player-document requests. -/
structure Network where
  indexResp : NetResponse PackEntry
  encounterResp : String → NetResponse RawCard
  playerResp : String → NetResponse RawCard

/-- The body of the per-pack loop: fetch and fold the encounter document,
then fetch and fold the player document. -/
def processPack (net : Network) (db : Db) (code : String) : Db :=
  let db1 := (fetchJson (net.encounterResp code)).foldl processEnc db
  (fetchJson (net.playerResp code)).foldl processPlayer db1

/-- The final sort: villains and heroes by name, schemes by
`(code || "")`; `localeCompare` is modelled as the string order, and the
stable JavaScript sort as insertion sort. -/
def sortDb (db : Db) : Db :=
  { db with
    villains := List.insertionSort (fun a b => a.name ≤ b.name) db.villains
    schemes := List.insertionSort (fun a b => a.code ≤ b.code) db.schemes
    heroes := List.insertionSort (fun a b => a.name ≤ b.name) db.heroes }

/-- The `run` driver: abort (`none`, nothing written) when the pack index
is empty or failed to fetch, otherwise fold every pack into the aggregate,
sort, and write the artifact (`some`). -/
def run (net : Network) : Option Db :=
  let packsData := fetchJson net.indexResp
  if packsData.isEmpty then none
  else
    some (sortDb ((packsData.map PackEntry.code).foldl (processPack net) emptyDb))

/- The tracker UI's counter updaters (identical in both UI variants):
each sets its counter to `Math.max(0, previous + delta)`. -/

/-- `modThreat`: `threat: Math.max(0, prev.threat + n)`. -/
def modThreat (threat n : Int) : Int := max 0 (threat + n)

/-- `modVillainHp`: `hp: Math.max(0, p.hp + n)`. -/
def modVillainHp (hp n : Int) : Int := max 0 (hp + n)

/-- `modHeroHp`: `hp: Math.max(0, p.hp + n)`. -/
def modHeroHp (hp n : Int) : Int := max 0 (hp + n)

/-- The per-unit state touched by `modUnitVal`. -/
structure TrackUnit where
  id : Int
  val : Int
deriving DecidableEq

/-- `modUnitVal`: map over the roster, clamping the matching unit's value
at zero and leaving every other unit unchanged. -/
def modUnitVal (units : List TrackUnit) (id amount : Int) : List TrackUnit :=
  units.map fun u => if u.id = id then { u with val := max 0 (u.val + amount) } else u

/-- Whether a JavaScript value is a non-negative number. -/
def JsVal.isNonNegNum : JsVal → Bool
  | .num n => decide (0 ≤ n)
  | _ => false

/- Concrete raw records used to instantiate the theorems. -/

/-- The upstream Rhino record of testable-property scenario A: a villain
whose raw health is the string "0". -/
def rhinoCard : RawCard :=
  { type_code := "villain", name := "Rhino", code := "01094",
    card_set_code := .str "rhino", health := .str "0",
    base_threat := .undefined, threat := .undefined,
    acceleration := .undefined, base_threat_fixed := .undefined }

/-- The minion of scenario B, with the multi-value health string "2x3". -/
def handNinjaCard : RawCard :=
  { type_code := "minion", name := "Hand Ninja", code := "01090",
    card_set_code := .null, health := .str "2x3",
    base_threat := .undefined, threat := .undefined,
    acceleration := .undefined, base_threat_fixed := .undefined }

/-- The main scheme of scenario C: `threat: null`,
`base_threat_fixed: true`. -/
def schemeNullThreatCard : RawCard :=
  { type_code := "main_scheme", name := "Scheme C", code := "01097",
    card_set_code := .str "set", health := .undefined,
    base_threat := .num 7, threat := .null,
    acceleration := .num 1, base_threat_fixed := .bool true }

/-- A main scheme whose raw threat is a negative number. -/
def negThreatCard : RawCard :=
  { type_code := "main_scheme", name := "Bad Scheme", code := "09001",
    card_set_code := .str "set", health := .undefined,
    base_threat := .num 0, threat := .num (-3),
    acceleration := .undefined, base_threat_fixed := .undefined }

/-- A hero record from a player document. -/
def heroCard : RawCard :=
  { type_code := "hero", name := "Spider-Man", code := "01001",
    card_set_code := .undefined, health := .num 10,
    base_threat := .undefined, threat := .undefined,
    acceleration := .undefined, base_threat_fixed := .undefined }

/-- An ally record from a player document. -/
def allyCard : RawCard :=
  { type_code := "ally", name := "Black Cat", code := "01005",
    card_set_code := .undefined, health := .str "2",
    base_threat := .undefined, threat := .undefined,
    acceleration := .undefined, base_threat_fixed := .undefined }

/-- A one-pack network delivering the sample encounter and player
documents. -/
def netCore : Network :=
  { indexResp := .resp 200 none (some [⟨"core"⟩])
    encounterResp := fun _ => .resp 200 none (some
      [rhinoCard, schemeNullThreatCard, handNinjaCard])
    playerResp := fun _ => .resp 200 none (some [heroCard, allyCard]) }

/-- A one-pack network whose single main scheme carries a negative raw
threat. -/
def netNegThreat : Network :=
  { indexResp := .resp 200 none (some [⟨"p"⟩])
    encounterResp := fun _ => .resp 200 none (some [negThreatCard])
    playerResp := fun _ => .err }

/-- A two-pack network whose first pack fails at the transport level. -/
def netOneFail : Network :=
  { indexResp := .resp 200 none (some [⟨"bad"⟩, ⟨"core"⟩])
    encounterResp := fun code =>
      if code = "core" then .resp 200 none (some [rhinoCard]) else .err
    playerResp := fun code =>
      if code = "core" then .resp 200 none (some [heroCard]) else .err }

/- Generic helper lemmas. -/

theorem mem_updateFirst {p : α → Bool} {f : α → α} :
    ∀ {l : List α} {x}, x ∈ updateFirst p f l → x ∈ l ∨ ∃ y ∈ l, p y = true ∧ x = f y := by
  intro l
  induction l with
  | nil => intro x hx; exact absurd hx (List.not_mem_nil x)
  | cons a l ih =>
    intro x hx
    unfold updateFirst at hx
    by_cases hp : p a
    · rw [if_pos hp] at hx
      rcases List.mem_cons.1 hx with h | h
      · exact Or.inr ⟨a, List.mem_cons_self a l, hp, h⟩
      · exact Or.inl (List.mem_cons_of_mem a h)
    · rw [if_neg hp] at hx
      rcases List.mem_cons.1 hx with h | h
      · exact Or.inl (h ▸ List.mem_cons_self a l)
      · rcases ih h with h' | ⟨y, hy, hpy, hxy⟩
        · exact Or.inl (List.mem_cons_of_mem a h')
        · exact Or.inr ⟨y, List.mem_cons_of_mem a hy, hpy, hxy⟩

theorem updateFirst_hit {p : α → Bool} {f : α → α} :
    ∀ {l : List α}, (∃ y ∈ l, p y = true) →
      ∃ y ∈ l, p y = true ∧ f y ∈ updateFirst p f l := by
  intro l
  induction l with
  | nil => rintro ⟨y, hy, -⟩; exact absurd hy (List.not_mem_nil y)
  | cons a l ih =>
    rintro ⟨y, hy, hpy⟩
    by_cases hp : p a
    · exact ⟨a, List.mem_cons_self a l, hp, by
        unfold updateFirst; rw [if_pos hp]; exact List.mem_cons_self _ _⟩
    · rcases List.mem_cons.1 hy with h | h
      · exact absurd (h ▸ hpy) (by simpa using hp)
      · rcases ih ⟨y, h, hpy⟩ with ⟨z, hz, hpz, hfz⟩
        exact ⟨z, List.mem_cons_of_mem a hz, hpz, by
          unfold updateFirst; rw [if_neg hp]; exact List.mem_cons_of_mem a hfz⟩

theorem length_updateFirst (p : α → Bool) (f : α → α) :
    ∀ l : List α, (updateFirst p f l).length = l.length := by
  intro l
  induction l with
  | nil => rfl
  | cons a l ih =>
    unfold updateFirst
    by_cases hp : p a
    · rw [if_pos hp]; simp
    · rw [if_neg hp]; simpa using ih

theorem map_updateFirst (g : α → β) (p : α → Bool) (f : α → α)
    (hg : ∀ y, p y = true → g (f y) = g y) :
    ∀ l : List α, (updateFirst p f l).map g = l.map g := by
  intro l
  induction l with
  | nil => rfl
  | cons a l ih =>
    unfold updateFirst
    by_cases hp : p a
    · rw [if_pos hp]; simp [hg a hp]
    · rw [if_neg hp]; simp [ih]

theorem foldl_preserves {g : β → α → β} {P : β → Prop}
    (h : ∀ b a, P b → P (g b a)) : ∀ (l : List α) (b : β), P b → P (l.foldl g b)
  | [], _, hb => hb
  | a :: l, b, hb => foldl_preserves h l (g b a) (h b a hb)

/-- Claim C10: in the tracker UI every counter-mutating operation clamps
its result at zero — `modVillainHp`, `modHeroHp`, `modThreat` and
`modUnitVal` compute `Math.max(0, previous + delta)`, so the mutated
villain HP, hero HP, main-scheme threat and unit value are never
negative, for any starting state and any signed delta. -/
theorem claim_C10 :
    (∀ threat n : Int, 0 ≤ modThreat threat n ∧ modThreat threat n = max 0 (threat + n))
  ∧ (∀ hp n : Int, 0 ≤ modVillainHp hp n ∧ modVillainHp hp n = max 0 (hp + n))
  ∧ (∀ hp n : Int, 0 ≤ modHeroHp hp n ∧ modHeroHp hp n = max 0 (hp + n))
  ∧ (∀ (units : List TrackUnit) (id amount : Int) (u : TrackUnit),
      u ∈ modUnitVal units id amount →
        (u.id = id → 0 ≤ u.val) ∧ (u.id ≠ id → u ∈ units)) := by
  refine ⟨fun t n => ⟨le_max_left 0 _, rfl⟩,
    fun h n => ⟨le_max_left 0 _, rfl⟩,
    fun h n => ⟨le_max_left 0 _, rfl⟩, ?_⟩
  intro units id amount u hu
  simp only [modUnitVal, List.mem_map] at hu
  obtain ⟨u0, hu0, rfl⟩ := hu
  by_cases h : u0.id = id
  · rw [if_pos h]
    exact ⟨fun _ => le_max_left 0 _, fun hne => absurd h hne⟩
  · rw [if_neg h]
    exact ⟨fun heq => absurd heq h, fun _ => hu0⟩

/-- Witness for C10 at concrete inputs. -/
theorem claim_C10_witness :
    (0 ≤ modThreat 2 (-5) ∧ modThreat 2 (-5) = max 0 (2 + (-5)))
  ∧ (0 ≤ modVillainHp 3 (-9) ∧ modVillainHp 3 (-9) = max 0 (3 + (-9)))
  ∧ (0 ≤ modHeroHp 1 (-4) ∧ modHeroHp 1 (-4) = max 0 (1 + (-4)))
  ∧ (((⟨1, 0⟩ : TrackUnit).id = 1 → 0 ≤ (⟨1, 0⟩ : TrackUnit).val)
      ∧ ((⟨1, 0⟩ : TrackUnit).id ≠ 1 → (⟨1, 0⟩ : TrackUnit) ∈ [(⟨1, 4⟩ : TrackUnit)])) :=
  ⟨claim_C10.1 2 (-5), claim_C10.2.1 3 (-9), claim_C10.2.2.1 1 (-4),
    claim_C10.2.2.2 [⟨1, 4⟩] 1 (-6) ⟨1, 0⟩ (by decide)⟩

/-- Claim C8: when the pack-index fetch yields an empty or unparsable
result, the run aborts before the writer executes and no artifact is
written (`run` returns `none` exactly when the fetched index is empty,
in particular on a transport error or an unparsable index body). -/
theorem claim_C8 (net : Network) :
    (run net = none ↔ fetchJson net.indexResp = [])
  ∧ (net.indexResp = .err → run net = none)
  ∧ (∀ s : Nat, net.indexResp = .resp s none none → run net = none) := by
  have hbase : run net = none ↔ fetchJson net.indexResp = [] := by
    unfold run
    cases h : fetchJson net.indexResp with
    | nil => simp
    | cons a l => simp
  refine ⟨hbase, ?_, ?_⟩
  · intro h
    exact hbase.2 (by rw [h]; rfl)
  · intro s h
    refine hbase.2 ?_
    rw [h]
    unfold fetchJson
    split
    · rfl
    · rfl

/-- Witness for C8 at a concrete network with an unparsable index body. -/
theorem claim_C8_witness :
    run { indexResp := .resp 200 none none, encounterResp := fun _ => .err,
          playerResp := fun _ => .err } = none :=
  (claim_C8 _).2.2 200 rfl

/-- Counterexample to claim C3 as stated: a response whose status 404
lies outside the 2xx/3xx range but whose body parses as JSON is returned
verbatim by `fetchJson` — the status code is never inspected except for
redirects — so the fetcher does not return an empty collection there. -/
theorem claim_C3_counterexample :
    fetchJson (NetResponse.resp 404 none (some [rhinoCard])) = [rhinoCard]
  ∧ fetchJson (NetResponse.resp 404 none (some [rhinoCard])) ≠ ([] : List RawCard) :=
  ⟨rfl, by decide⟩

/-- Claim C3 (amended): `fetchJson` returns the empty collection on a
transport error and whenever the body fails to parse as JSON (the status
code itself is ignored apart from following a 3xx redirect with a
location); a pack both of whose documents fetch empty contributes zero
records to every collection while all other packs are still processed. -/
theorem claim_C3_amended :
    (∀ α : Type, fetchJson (NetResponse.err : NetResponse α) = [])
  ∧ (∀ (α : Type) (status : Nat),
      fetchJson (NetResponse.resp status none (none : Option (List α))) = [])
  ∧ (∀ (α : Type) (status : Nat) (next : NetResponse α) (body : Option (List α)),
      300 ≤ status → status < 400 →
        fetchJson (NetResponse.resp status (some next) body) = fetchJson next)
  ∧ (∀ (net : Network) (d : Db) (codes1 codes2 : List String) (bad : String),
      fetchJson (net.encounterResp bad) = [] →
      fetchJson (net.playerResp bad) = [] →
        (codes1 ++ bad :: codes2).foldl (processPack net) d =
          (codes1 ++ codes2).foldl (processPack net) d) := by
  refine ⟨fun α => rfl, ?_, ?_, ?_⟩
  · intro α status
    unfold fetchJson
    split
    · rfl
    · rfl
  · intro α status next body h3 h4
    show (if 300 ≤ status ∧ status < 400 then
        match some next with
        | some n => fetchJson n
        | none => body.getD []
      else body.getD []) = fetchJson next
    rw [if_pos ⟨h3, h4⟩]
  · intro net d codes1 codes2 bad henc hply
    have hskip : processPack net (codes1.foldl (processPack net) d) bad =
        codes1.foldl (processPack net) d := by
      unfold processPack
      rw [henc, hply]
      rfl
    rw [List.foldl_append, List.foldl_append, List.foldl_cons, hskip]

/-- Witness for the amended C3 at a concrete two-pack network whose first
pack fails at the transport level. -/
theorem claim_C3_amended_witness :
    (([] ++ "bad" :: ["core"]).foldl (processPack netOneFail) emptyDb =
      ([] ++ ["core"]).foldl (processPack netOneFail) emptyDb)
  ∧ fetchJson (NetResponse.err : NetResponse RawCard) = [] :=
  ⟨claim_C3_amended.2.2.2 netOneFail emptyDb [] ["core"] "bad" rfl rfl,
    claim_C3_amended.1 RawCard⟩

/-- Claim C6: a record with kind tag "main_scheme" is appended to the
schemes collection exactly when its threat field is present and non-null
or its fixed base-threat flag is strictly `true`; the emitted entry takes
`init`, `target`, `accel` as the raw field when truthy and 0 otherwise,
and `fixed` as the raw flag when truthy and `false` otherwise (so threat
null with fixed true yields target 0 and fixed true). -/
theorem claim_C6 (db : Db) (c : RawCard) (h : c.type_code = "main_scheme") :
    (processEnc db c).schemes =
      db.schemes ++
        (if (c.threat ≠ JsVal.undefined ∧ c.threat ≠ JsVal.null) ∨
            c.base_threat_fixed = JsVal.bool true then
          [{ name := c.name
             code := c.code
             set_code := if c.card_set_code.truthy then c.card_set_code else .str "unknown"
             init := if c.base_threat.truthy then c.base_threat else .num 0
             target := if c.threat.truthy then c.threat else .num 0
             accel := if c.acceleration.truthy then c.acceleration else .num 0
             fixed := if c.base_threat_fixed.truthy then c.base_threat_fixed
                      else .bool false }]
        else []) := by
  unfold processEnc
  rw [h]
  rw [if_neg (by decide : ¬ ("main_scheme" = "villain"))]
  rw [if_pos rfl]
  split
  · rfl
  · simp

/-- Witness for C6: scenario C — a main scheme with `threat: null` and
`base_threat_fixed: true` is included, with target 0 and fixed true. -/
theorem claim_C6_witness :
    (processEnc emptyDb schemeNullThreatCard).schemes =
      [{ name := "Scheme C", code := "01097", set_code := .str "set",
         init := .num 7, target := .num 0, accel := .num 1,
         fixed := .bool true }] :=
  claim_C6 emptyDb schemeNullThreatCard rfl

/-- Modelled from the spec's words, for comparison with the source's
health parser: delete every character outside 0-9 from the stringified
raw health field and read the remainder as a decimal integer, yielding 0
when no digits remain. -/
def specHp (v : JsVal) : Nat :=
  let ds := v.toJsString.data.filter fun ch => decide ('0' ≤ ch ∧ ch ≤ '9')
  if ds = [] then 0 else ds.foldl (fun a ch => a * 10 + (ch.toNat - 48)) 0

theorem isDigit_iff_range (c : Char) : c.isDigit = decide ('0' ≤ c ∧ c ≤ '9') := by
  have h1 : (('0' : Char) ≤ c) ↔ 48 ≤ c.val := by rw [Char.le_def]; exact Iff.rfl
  have h2 : ((c : Char) ≤ '9') ↔ c.val ≤ 57 := by rw [Char.le_def]; exact Iff.rfl
  by_cases hA : 48 ≤ c.val <;> by_cases hB : c.val ≤ 57 <;>
    simp [Char.isDigit, h1, h2, hA, hB]

theorem addAlly_heroes (db : Db) (c : RawCard) : (addAlly db c).heroes = db.heroes := by
  unfold addAlly
  split_ifs <;> rfl

theorem addHero_allies (db : Db) (c : RawCard) : (addHero db c).allies = db.allies := by
  unfold addHero
  split_ifs <;> rfl

theorem parseHealth_eq_specHp (v : JsVal) : parseHealth v = specHp v := by
  have hfun : Char.isDigit = (fun ch => decide ('0' ≤ ch ∧ ch ≤ '9')) :=
    funext isDigit_iff_range
  unfold parseHealth specHp stripNonDigits
  rw [hfun]
  cases h : v.toJsString.data.filter (fun ch => decide ('0' ≤ ch ∧ ch ≤ '9')) with
  | nil => rfl
  | cons a l => rfl

/-- Claim C2: every minion, hero and ally entry added to the output
carries `hp` equal to the decimal integer read from the raw health field
after deleting every non-digit character, and 0 when no digits remain
(raw health "2x3" yields hp 23). -/
theorem claim_C2 :
    (∀ (db : Db) (c : RawCard), c.type_code = "minion" →
        ¬ db.minions.any (fun m => m.name = c.name) = true →
        (processEnc db c).minions =
          db.minions ++ [{ name := c.name, hp := specHp c.health, code := c.code }])
  ∧ (∀ (db : Db) (c : RawCard), c.type_code = "hero" →
        ¬ db.heroes.any (fun h => h.name = c.name) = true →
        (processPlayer db c).heroes =
          db.heroes ++ [{ name := c.name, hp := specHp c.health, code := c.code }])
  ∧ (∀ (db : Db) (c : RawCard), c.type_code = "ally" →
        ¬ db.allies.any (fun a => a.name = c.name) = true →
        (processPlayer db c).allies =
          db.allies ++ [{ name := c.name, hp := specHp c.health, code := c.code }])
  ∧ (∀ v : JsVal, parseHealth v = specHp v)
  ∧ (∀ v : JsVal, v.toJsString.data.filter Char.isDigit = [] → parseHealth v = 0)
  ∧ parseHealth (.str "2x3") = 23 := by
  refine ⟨?_, ?_, ?_, parseHealth_eq_specHp, ?_, by decide⟩
  · intro db c ht hnew
    unfold processEnc
    rw [ht]
    rw [if_neg (by decide : ¬ ("minion" = "villain"))]
    rw [if_neg (by decide : ¬ ("minion" = "main_scheme"))]
    rw [if_neg (by decide : ¬ ("minion" = "side_scheme"))]
    rw [if_pos rfl, if_neg hnew, parseHealth_eq_specHp]
  · intro db c ht hnew
    show (addAlly (addHero db c) c).heroes = _
    rw [addAlly_heroes]
    unfold addHero
    rw [if_pos ⟨ht, hnew⟩, parseHealth_eq_specHp]
  · intro db c ht hnew
    show (addAlly (addHero db c) c).allies = _
    have hh : addHero db c = db := by
      unfold addHero
      rw [if_neg]
      rintro ⟨hcontr, -⟩
      rw [ht] at hcontr
      exact absurd hcontr (by decide)
    rw [hh]
    unfold addAlly
    rw [if_pos ⟨ht, hnew⟩, parseHealth_eq_specHp]
  · intro v hv
    unfold parseHealth stripNonDigits
    rw [hv]
    rfl

/-- Witness for C2: the Hand Ninja minion with raw health "2x3" is added
with hp 23. -/
theorem claim_C2_witness :
    ((processEnc emptyDb handNinjaCard).minions =
      emptyDb.minions ++
        [{ name := "Hand Ninja", hp := specHp (JsVal.str "2x3"), code := "01090" }])
  ∧ parseHealth (.str "2x3") = 23
  ∧ specHp (.str "2x3") = 23 :=
  ⟨claim_C2.1 emptyDb handNinjaCard rfl (by decide), claim_C2.2.2.2.2.2, by decide⟩

/- Branch case analyses of the two per-card folding steps, used by the
invariant proofs below. -/

theorem processEnc_villains_cases (db : Db) (c : RawCard) :
    (processEnc db c).villains = db.villains
  ∨ ((processEnc db c).villains =
      updateFirst (fun v => v.name = c.name)
        (fun v => { v with stages := goldenOf c.name }) db.villains
      ∧ db.villains.any (fun v => v.name = c.name) = true)
  ∨ ((processEnc db c).villains = db.villains ++
      [{ name := c.name, code := c.code, set_code := setCodeOf c,
         stages := goldenOf c.name }]
      ∧ db.villains.any (fun v => v.name = c.name) = false) := by
  unfold processEnc
  split_ifs <;>
    first
      | exact Or.inl rfl
      | exact Or.inr (Or.inl ⟨rfl, by assumption⟩)
      | (refine Or.inr (Or.inr ⟨rfl, ?_⟩)
         cases hx : db.villains.any (fun v => v.name = c.name) with
          | false => rfl
          | true => exact absurd hx (by assumption))

theorem processEnc_schemes_cases (db : Db) (c : RawCard) :
    (processEnc db c).schemes = db.schemes
  ∨ (processEnc db c).schemes = db.schemes ++ [mkScheme c] := by
  unfold processEnc
  split_ifs <;> first | exact Or.inl rfl | exact Or.inr rfl

theorem processEnc_side_cases (db : Db) (c : RawCard) :
    (processEnc db c).side_schemes = db.side_schemes
  ∨ ((processEnc db c).side_schemes = db.side_schemes ++
      [{ name := c.name, init := jsOr c.base_threat (.num 0), code := c.code }]
      ∧ db.side_schemes.any (fun s => s.name = c.name) = false) := by
  unfold processEnc
  split_ifs <;>
    first
      | exact Or.inl rfl
      | (refine Or.inr ⟨rfl, ?_⟩
         cases hx : db.side_schemes.any (fun s => s.name = c.name) with
          | false => rfl
          | true => exact absurd hx (by assumption))

theorem processEnc_minions_cases (db : Db) (c : RawCard) :
    (processEnc db c).minions = db.minions
  ∨ ((processEnc db c).minions = db.minions ++
      [{ name := c.name, hp := parseHealth c.health, code := c.code }]
      ∧ db.minions.any (fun m => m.name = c.name) = false) := by
  unfold processEnc
  split_ifs <;>
    first
      | exact Or.inl rfl
      | (refine Or.inr ⟨rfl, ?_⟩
         cases hx : db.minions.any (fun m => m.name = c.name) with
          | false => rfl
          | true => exact absurd hx (by assumption))

theorem processEnc_heroes (db : Db) (c : RawCard) :
    (processEnc db c).heroes = db.heroes := by
  unfold processEnc
  split_ifs <;> rfl

theorem processEnc_allies (db : Db) (c : RawCard) :
    (processEnc db c).allies = db.allies := by
  unfold processEnc
  split_ifs <;> rfl

theorem addHero_heroes_cases (db : Db) (c : RawCard) :
    (addHero db c).heroes = db.heroes
  ∨ ((addHero db c).heroes = db.heroes ++
      [{ name := c.name, hp := parseHealth c.health, code := c.code }]
      ∧ db.heroes.any (fun h => h.name = c.name) = false) := by
  unfold addHero
  split_ifs with h1
  · refine Or.inr ⟨rfl, ?_⟩
    cases hx : db.heroes.any (fun h => h.name = c.name) with
    | false => rfl
    | true => exact absurd hx h1.2
  · exact Or.inl rfl

theorem addAlly_allies_cases (db : Db) (c : RawCard) :
    (addAlly db c).allies = db.allies
  ∨ ((addAlly db c).allies = db.allies ++
      [{ name := c.name, hp := parseHealth c.health, code := c.code }]
      ∧ db.allies.any (fun a => a.name = c.name) = false) := by
  unfold addAlly
  split_ifs with h1
  · refine Or.inr ⟨rfl, ?_⟩
    cases hx : db.allies.any (fun a => a.name = c.name) with
    | false => rfl
    | true => exact absurd hx h1.2
  · exact Or.inl rfl

theorem addHero_others (db : Db) (c : RawCard) :
    (addHero db c).villains = db.villains ∧ (addHero db c).schemes = db.schemes
  ∧ (addHero db c).side_schemes = db.side_schemes
  ∧ (addHero db c).minions = db.minions := by
  unfold addHero
  split_ifs <;> exact ⟨rfl, rfl, rfl, rfl⟩

theorem addAlly_others (db : Db) (c : RawCard) :
    (addAlly db c).villains = db.villains ∧ (addAlly db c).schemes = db.schemes
  ∧ (addAlly db c).side_schemes = db.side_schemes
  ∧ (addAlly db c).minions = db.minions
  ∧ (addAlly db c).heroes = db.heroes := by
  unfold addAlly
  split_ifs <;> exact ⟨rfl, rfl, rfl, rfl, rfl⟩

theorem processPlayer_villains (db : Db) (c : RawCard) :
    (processPlayer db c).villains = db.villains := by
  unfold processPlayer
  rw [(addAlly_others _ _).1, (addHero_others _ _).1]

theorem processPlayer_schemes (db : Db) (c : RawCard) :
    (processPlayer db c).schemes = db.schemes := by
  unfold processPlayer
  rw [(addAlly_others _ _).2.1, (addHero_others _ _).2.1]

theorem processPlayer_side (db : Db) (c : RawCard) :
    (processPlayer db c).side_schemes = db.side_schemes := by
  unfold processPlayer
  rw [(addAlly_others _ _).2.2.1, (addHero_others _ _).2.2.1]

theorem processPlayer_minions (db : Db) (c : RawCard) :
    (processPlayer db c).minions = db.minions := by
  unfold processPlayer
  rw [(addAlly_others _ _).2.2.2.1, (addHero_others _ _).2.2.2]

/-- Unpack a successful run into the sorted fold it writes. -/
theorem run_eq_some {net : Network} {db : Db} (h : run net = some db) :
    db = sortDb (((fetchJson net.indexResp).map PackEntry.code).foldl
      (processPack net) emptyDb) := by
  simp only [run] at h
  split at h
  · exact absurd h (by simp)
  · exact (Option.some_inj.mp h).symm

/- Invariant: every villain entry's stages equal the golden value of its
own name, at every point of the aggregation. -/

/-- The C1 invariant on the aggregate. -/
def StagesInv (d : Db) : Prop := ∀ v ∈ d.villains, v.stages = goldenOf v.name

theorem stages_inv_enc {db : Db} (c : RawCard)
    (h : StagesInv db) : StagesInv (processEnc db c) := by
  show ∀ v ∈ (processEnc db c).villains, v.stages = goldenOf v.name
  rcases processEnc_villains_cases db c with hv | ⟨hv, -⟩ | ⟨hv, -⟩ <;> rw [hv]
  · exact h
  · intro v hvmem
    rcases mem_updateFirst hvmem with h' | ⟨y, hy, hpy, rfl⟩
    · exact h v h'
    · have hn : y.name = c.name := of_decide_eq_true hpy
      show goldenOf c.name = goldenOf y.name
      rw [hn]
  · intro v hvmem
    rcases List.mem_append.1 hvmem with h' | h'
    · exact h v h'
    · rw [List.mem_singleton.1 h']

theorem stages_inv_player {db : Db} (c : RawCard)
    (h : StagesInv db) : StagesInv (processPlayer db c) := by
  show ∀ v ∈ (processPlayer db c).villains, v.stages = goldenOf v.name
  rw [processPlayer_villains]
  exact h

theorem stages_inv_run {net : Network} {db : Db} (h : run net = some db) :
    ∀ v ∈ db.villains, v.stages = goldenOf v.name := by
  have hstep : ∀ (d : Db) (code : String), StagesInv d → StagesInv (processPack net d code) := by
    intro d code hd
    simp only [processPack]
    exact foldl_preserves (fun b a hb => stages_inv_player a hb) _ _
      (foldl_preserves (fun b a hb => stages_inv_enc a hb) _ _ hd)
  have hall := foldl_preserves hstep ((fetchJson net.indexResp).map PackEntry.code)
    emptyDb (fun v hv => absurd hv (List.not_mem_nil v))
  rw [run_eq_some h]
  intro v hv
  simp only [sortDb, List.mem_insertionSort] at hv
  exact hall v hv

/-- A villain record whose display name collides with an
`Object.prototype` property name. -/
def toStringCard : RawCard :=
  { type_code := "villain", name := "toString", code := "90001",
    card_set_code := .str "odd", health := .str "0",
    base_threat := .undefined, threat := .undefined,
    acceleration := .undefined, base_threat_fixed := .undefined }

/-- A one-pack network delivering only the colliding-name villain. -/
def netProtoName : Network :=
  { indexResp := .resp 200 none (some [⟨"odd"⟩])
    encounterResp := fun _ => .resp 200 none (some [toStringCard])
    playerResp := fun _ => .err }

/-- Counterexample to claim C1 as stated: the villain name "toString" is
absent from the override table, yet its output `stages` is not the
fallback [15, 15, 15] — `VILLAIN_STATS["toString"]` walks the prototype
chain and yields the truthy inherited `Object.prototype.toString`, so the
`!goldenStats` fallback is skipped and the inherited member is stored. -/
theorem claim_C1_counterexample :
    VILLAIN_STATS.lookup "toString" = none
  ∧ ∃ db, run netProtoName = some db ∧
      ∃ v ∈ db.villains, v.name = "toString"
        ∧ v.stages = StagesVal.inherited "toString"
        ∧ ∀ l : List Nat, v.stages ≠ StagesVal.arr l := by
  refine ⟨rfl, (run netProtoName).getD emptyDb, rfl, ?_⟩
  refine ⟨{ name := "toString", code := "90001", set_code := .str "odd",
            stages := .inherited "toString" }, by decide, rfl, rfl, ?_⟩
  intro l hl
  exact StagesVal.noConfusion hl

/-- Claim C1 (amended): every villain record's `stages` is determined
solely by the display name, via the JavaScript property access
`VILLAIN_STATS[name]`: an own key of the override table yields that
entry verbatim; a name absent from the table that does not collide with
an `Object.prototype` property name yields the fallback [15, 15, 15];
an absent name that does collide yields the truthy inherited member and
the fallback is skipped.  In no case does `stages` depend on any
health-like field of the upstream raw record. -/
theorem claim_C1 (net : Network) (db : Db) (h : run net = some db) :
    ∀ v ∈ db.villains,
      v.stages = goldenOf v.name
      ∧ (∀ st, VILLAIN_STATS.lookup v.name = some st → v.stages = .arr st)
      ∧ (VILLAIN_STATS.lookup v.name = none → v.name ∉ OBJECT_PROTO_KEYS →
          v.stages = .arr [15, 15, 15])
      ∧ (VILLAIN_STATS.lookup v.name = none → v.name ∈ OBJECT_PROTO_KEYS →
          v.stages = .inherited v.name) := by
  intro v hv
  have hg := stages_inv_run h v hv
  refine ⟨hg, ?_, ?_, ?_⟩
  · intro st hst
    rw [hg]
    unfold goldenOf
    rw [hst]
  · intro hst hmem
    rw [hg]
    unfold goldenOf
    rw [hst]
    show (if v.name ∈ OBJECT_PROTO_KEYS then StagesVal.inherited v.name
      else StagesVal.arr [15, 15, 15]) = StagesVal.arr [15, 15, 15]
    rw [if_neg hmem]
  · intro hst hmem
    rw [hg]
    unfold goldenOf
    rw [hst]
    show (if v.name ∈ OBJECT_PROTO_KEYS then StagesVal.inherited v.name
      else StagesVal.arr [15, 15, 15]) = StagesVal.inherited v.name
    rw [if_pos hmem]

/-- Witness for the amended C1 at the concrete one-pack network. -/
theorem claim_C1_witness :
    ∃ db, run netCore = some db ∧
      ∀ v ∈ db.villains,
        v.stages = goldenOf v.name
        ∧ (∀ st, VILLAIN_STATS.lookup v.name = some st → v.stages = .arr st)
        ∧ (VILLAIN_STATS.lookup v.name = none → v.name ∉ OBJECT_PROTO_KEYS →
            v.stages = .arr [15, 15, 15])
        ∧ (VILLAIN_STATS.lookup v.name = none → v.name ∈ OBJECT_PROTO_KEYS →
            v.stages = .inherited v.name) :=
  ⟨(run netCore).getD emptyDb, rfl, claim_C1 netCore _ rfl⟩

/- Invariant: threat fields of emitted scheme entries are either the
literal number 0 or a truthy raw value. -/

theorem jsOr_num_zero (a : JsVal) :
    jsOr a (.num 0) = JsVal.num 0 ∨ (jsOr a (.num 0)).truthy = true := by
  unfold jsOr
  split_ifs with h
  · exact Or.inr h
  · exact Or.inl rfl

theorem not_nullish_of_zero_or_truthy {v : JsVal}
    (h : v = JsVal.num 0 ∨ v.truthy = true) :
    v ≠ JsVal.null ∧ v ≠ JsVal.undefined := by
  rcases h with rfl | h
  · exact ⟨by decide, by decide⟩
  · constructor <;> rintro rfl <;> exact absurd h (by decide)

/-- The C4 invariant on the aggregate: every emitted threat field is the
number 0 or a truthy raw value. -/
def ThreatInv (d : Db) : Prop :=
  (∀ s ∈ d.schemes,
      (s.init = JsVal.num 0 ∨ s.init.truthy = true)
    ∧ (s.target = JsVal.num 0 ∨ s.target.truthy = true)
    ∧ (s.accel = JsVal.num 0 ∨ s.accel.truthy = true))
  ∧ (∀ s ∈ d.side_schemes, s.init = JsVal.num 0 ∨ s.init.truthy = true)

theorem threat_inv_enc {db : Db} (c : RawCard)
    (h : ThreatInv db) : ThreatInv (processEnc db c) := by
  constructor
  · rcases processEnc_schemes_cases db c with hs | hs <;> rw [hs]
    · exact h.1
    · intro s hsm
      rcases List.mem_append.1 hsm with h' | h'
      · exact h.1 s h'
      · rw [List.mem_singleton.1 h']
        exact ⟨jsOr_num_zero _, jsOr_num_zero _, jsOr_num_zero _⟩
  · rcases processEnc_side_cases db c with hs | ⟨hs, -⟩ <;> rw [hs]
    · exact h.2
    · intro s hsm
      rcases List.mem_append.1 hsm with h' | h'
      · exact h.2 s h'
      · rw [List.mem_singleton.1 h']
        exact jsOr_num_zero _

theorem threat_inv_player {db : Db} (c : RawCard)
    (h : ThreatInv db) : ThreatInv (processPlayer db c) := by
  unfold ThreatInv
  rw [processPlayer_schemes, processPlayer_side]
  exact h

/-- Counterexample to claim C4 as stated: a main scheme whose raw threat
is the truthy number -3 is written with `target` equal to -3, a negative
number, because `card.threat || 0` passes any truthy value through
verbatim. -/
theorem claim_C4_counterexample :
    ∃ db, run netNegThreat = some db ∧
      ∃ s ∈ db.schemes, s.target = JsVal.num (-3) ∧ s.target.isNonNegNum = false := by
  refine ⟨(run netNegThreat).getD emptyDb, rfl, ?_⟩
  refine ⟨{ name := "Bad Scheme", code := "09001", set_code := .str "set",
            init := .num 0, target := .num (-3), accel := .num 0,
            fixed := .bool false }, by decide, rfl, rfl⟩

/-- Claim C4 (amended): in the written artifact every `hp` field is a
non-negative integer, and every numeric threat field (`init`, `target`,
`accel` of schemes; `init` of side schemes) is never null/undefined —
any falsy raw value (null, undefined, 0, NaN, empty string) is coerced to
the number 0, but a truthy raw value is emitted verbatim, so a negative
number or a non-numeric string is not corrected. -/
theorem claim_C4_amended (net : Network) (db : Db) (h : run net = some db) :
    (∀ s ∈ db.schemes,
        (s.init = JsVal.num 0 ∨ s.init.truthy = true)
      ∧ (s.target = JsVal.num 0 ∨ s.target.truthy = true)
      ∧ (s.accel = JsVal.num 0 ∨ s.accel.truthy = true)
      ∧ s.init ≠ JsVal.null ∧ s.init ≠ JsVal.undefined
      ∧ s.target ≠ JsVal.null ∧ s.target ≠ JsVal.undefined
      ∧ s.accel ≠ JsVal.null ∧ s.accel ≠ JsVal.undefined)
  ∧ (∀ s ∈ db.side_schemes,
        (s.init = JsVal.num 0 ∨ s.init.truthy = true)
      ∧ s.init ≠ JsVal.null ∧ s.init ≠ JsVal.undefined)
  ∧ (∀ e ∈ db.minions, 0 ≤ (e.hp : Int))
  ∧ (∀ e ∈ db.heroes, 0 ≤ (e.hp : Int))
  ∧ (∀ e ∈ db.allies, 0 ≤ (e.hp : Int)) := by
  have hstep : ∀ (d : Db) (code : String), ThreatInv d → ThreatInv (processPack net d code) := by
    intro d code hd
    simp only [processPack]
    exact foldl_preserves (fun b a hb => threat_inv_player a hb) _ _
      (foldl_preserves (fun b a hb => threat_inv_enc a hb) _ _ hd)
  have hall := foldl_preserves hstep ((fetchJson net.indexResp).map PackEntry.code)
    emptyDb ⟨fun s hs => absurd hs (List.not_mem_nil s),
      fun s hs => absurd hs (List.not_mem_nil s)⟩
  rw [run_eq_some h]
  refine ⟨?_, ?_, fun e _ => Int.natCast_nonneg e.hp,
    fun e _ => Int.natCast_nonneg e.hp, fun e _ => Int.natCast_nonneg e.hp⟩
  · intro s hs
    simp only [sortDb, List.mem_insertionSort] at hs
    obtain ⟨q1, q2, q3⟩ := hall.1 s hs
    obtain ⟨n1, n2⟩ := not_nullish_of_zero_or_truthy q1
    obtain ⟨n3, n4⟩ := not_nullish_of_zero_or_truthy q2
    obtain ⟨n5, n6⟩ := not_nullish_of_zero_or_truthy q3
    exact ⟨q1, q2, q3, n1, n2, n3, n4, n5, n6⟩
  · intro s hs
    have hs' : s ∈ (((fetchJson net.indexResp).map PackEntry.code).foldl
        (processPack net) emptyDb).side_schemes := hs
    obtain q := hall.2 s hs'
    obtain ⟨n1, n2⟩ := not_nullish_of_zero_or_truthy q
    exact ⟨q, n1, n2⟩

/-- Witness for the amended C4 at the concrete negative-threat network. -/
theorem claim_C4_amended_witness :
    ∃ db, run netNegThreat = some db ∧
      ∀ s ∈ db.schemes,
        (s.init = JsVal.num 0 ∨ s.init.truthy = true)
      ∧ (s.target = JsVal.num 0 ∨ s.target.truthy = true)
      ∧ (s.accel = JsVal.num 0 ∨ s.accel.truthy = true)
      ∧ s.init ≠ JsVal.null ∧ s.init ≠ JsVal.undefined
      ∧ s.target ≠ JsVal.null ∧ s.target ≠ JsVal.undefined
      ∧ s.accel ≠ JsVal.null ∧ s.accel ≠ JsVal.undefined :=
  ⟨(run netNegThreat).getD emptyDb, rfl,
    (claim_C4_amended netNegThreat _ rfl).1⟩

/- Invariant: within each deduplicated collection names are pairwise
distinct, and entries once present are never modified or dropped
(non-villain kinds). -/

theorem not_mem_map_of_any_false {α : Type} {l : List α} {g : α → String} {n : String}
    (h : (l.any fun x => g x = n) = false) : n ∉ l.map g := by
  intro hmem
  rcases List.mem_map.1 hmem with ⟨x, hx, rfl⟩
  have h2 : (l.any fun y => g y = g x) = true := List.any_eq_true.2 ⟨x, hx, by simp⟩
  rw [h] at h2
  cases h2

theorem nodup_append_singleton {l : List String} {n : String}
    (hl : l.Nodup) (hn : n ∉ l) : (l ++ [n]).Nodup := by
  rw [List.nodup_append]
  exact ⟨hl, List.nodup_singleton n, fun a ha hb => hn (List.mem_singleton.1 hb ▸ ha)⟩

/-- The C5 dedup invariant on the aggregate. -/
def NodupInv (d : Db) : Prop :=
    (d.villains.map Villain.name).Nodup
  ∧ (d.heroes.map HpCard.name).Nodup
  ∧ (d.side_schemes.map SideScheme.name).Nodup
  ∧ (d.minions.map HpCard.name).Nodup
  ∧ (d.allies.map HpCard.name).Nodup

theorem nodup_inv_enc {db : Db} (c : RawCard) (h : NodupInv db) :
    NodupInv (processEnc db c) := by
  refine ⟨?_, ?_, ?_, ?_, ?_⟩
  · rcases processEnc_villains_cases db c with hv | ⟨hv, -⟩ | ⟨hv, hany⟩ <;> rw [hv]
    · exact h.1
    · rw [map_updateFirst Villain.name (fun v => decide (v.name = c.name))
        (fun v => { v with stages := goldenOf c.name }) (fun y _ => rfl)]
      exact h.1
    · rw [List.map_append]
      exact nodup_append_singleton h.1 (not_mem_map_of_any_false hany)
  · rw [processEnc_heroes]
    exact h.2.1
  · rcases processEnc_side_cases db c with hs | ⟨hs, hany⟩ <;> rw [hs]
    · exact h.2.2.1
    · rw [List.map_append]
      exact nodup_append_singleton h.2.2.1 (not_mem_map_of_any_false hany)
  · rcases processEnc_minions_cases db c with hm | ⟨hm, hany⟩ <;> rw [hm]
    · exact h.2.2.2.1
    · rw [List.map_append]
      exact nodup_append_singleton h.2.2.2.1 (not_mem_map_of_any_false hany)
  · rw [processEnc_allies]
    exact h.2.2.2.2

theorem nodup_inv_addHero {db : Db} (c : RawCard) (h : NodupInv db) :
    NodupInv (addHero db c) := by
  refine ⟨?_, ?_, ?_, ?_, ?_⟩
  · rw [(addHero_others db c).1]; exact h.1
  · rcases addHero_heroes_cases db c with hh | ⟨hh, hany⟩ <;> rw [hh]
    · exact h.2.1
    · rw [List.map_append]
      exact nodup_append_singleton h.2.1 (not_mem_map_of_any_false hany)
  · rw [(addHero_others db c).2.2.1]; exact h.2.2.1
  · rw [(addHero_others db c).2.2.2]; exact h.2.2.2.1
  · rw [addHero_allies]; exact h.2.2.2.2

theorem nodup_inv_addAlly {db : Db} (c : RawCard) (h : NodupInv db) :
    NodupInv (addAlly db c) := by
  refine ⟨?_, ?_, ?_, ?_, ?_⟩
  · rw [(addAlly_others db c).1]; exact h.1
  · rw [(addAlly_others db c).2.2.2.2]; exact h.2.1
  · rw [(addAlly_others db c).2.2.1]; exact h.2.2.1
  · rw [(addAlly_others db c).2.2.2.1]; exact h.2.2.2.1
  · rcases addAlly_allies_cases db c with ha | ⟨ha, hany⟩ <;> rw [ha]
    · exact h.2.2.2.2
    · rw [List.map_append]
      exact nodup_append_singleton h.2.2.2.2 (not_mem_map_of_any_false hany)

theorem nodup_inv_player {db : Db} (c : RawCard) (h : NodupInv db) :
    NodupInv (processPlayer db c) :=
  nodup_inv_addAlly c (nodup_inv_addHero c h)

/- Membership preservation: heroes, allies, minions and side schemes are
never removed or rewritten once added. -/

theorem mem_heroes_enc {db : Db} {c : RawCard} {e : HpCard}
    (he : e ∈ db.heroes) : e ∈ (processEnc db c).heroes := by
  rw [processEnc_heroes]
  exact he

theorem mem_heroes_player {db : Db} {c : RawCard} {e : HpCard}
    (he : e ∈ db.heroes) : e ∈ (processPlayer db c).heroes := by
  show e ∈ (addAlly (addHero db c) c).heroes
  rw [addAlly_heroes]
  rcases addHero_heroes_cases db c with hh | ⟨hh, -⟩ <;> rw [hh]
  · exact he
  · exact List.mem_append_left _ he

theorem mem_allies_enc {db : Db} {c : RawCard} {e : HpCard}
    (he : e ∈ db.allies) : e ∈ (processEnc db c).allies := by
  rw [processEnc_allies]
  exact he

theorem mem_allies_player {db : Db} {c : RawCard} {e : HpCard}
    (he : e ∈ db.allies) : e ∈ (processPlayer db c).allies := by
  show e ∈ (addAlly (addHero db c) c).allies
  have he1 : e ∈ (addHero db c).allies := by
    rw [addHero_allies]
    exact he
  rcases addAlly_allies_cases (addHero db c) c with ha | ⟨ha, -⟩ <;> rw [ha]
  · exact he1
  · exact List.mem_append_left _ he1

theorem mem_minions_enc {db : Db} {c : RawCard} {e : HpCard}
    (he : e ∈ db.minions) : e ∈ (processEnc db c).minions := by
  rcases processEnc_minions_cases db c with hm | ⟨hm, -⟩ <;> rw [hm]
  · exact he
  · exact List.mem_append_left _ he

theorem mem_minions_player {db : Db} {c : RawCard} {e : HpCard}
    (he : e ∈ db.minions) : e ∈ (processPlayer db c).minions := by
  rw [processPlayer_minions]
  exact he

theorem mem_side_enc {db : Db} {c : RawCard} {e : SideScheme}
    (he : e ∈ db.side_schemes) : e ∈ (processEnc db c).side_schemes := by
  rcases processEnc_side_cases db c with hs | ⟨hs, -⟩ <;> rw [hs]
  · exact he
  · exact List.mem_append_left _ he

theorem mem_side_player {db : Db} {c : RawCard} {e : SideScheme}
    (he : e ∈ db.side_schemes) : e ∈ (processPlayer db c).side_schemes := by
  rw [processPlayer_side]
  exact he

/-- Claim C5: after a full run each of the villains, heroes,
side_schemes, minions and allies collections holds at most one entry per
display name (case-sensitive), and for every kind except villains an
entry, once added, survives all later packs unchanged — so the retained
record comes from the first occurrence of its name. -/
theorem claim_C5 (net : Network) (db : Db) (h : run net = some db) :
    ((db.villains.map Villain.name).Nodup
      ∧ (db.heroes.map HpCard.name).Nodup
      ∧ (db.side_schemes.map SideScheme.name).Nodup
      ∧ (db.minions.map HpCard.name).Nodup
      ∧ (db.allies.map HpCard.name).Nodup)
  ∧ (∀ (net' : Network) (d : Db) (codes : List String),
        (∀ e ∈ d.heroes, e ∈ (sortDb (codes.foldl (processPack net') d)).heroes)
      ∧ (∀ e ∈ d.side_schemes,
          e ∈ (sortDb (codes.foldl (processPack net') d)).side_schemes)
      ∧ (∀ e ∈ d.minions, e ∈ (sortDb (codes.foldl (processPack net') d)).minions)
      ∧ (∀ e ∈ d.allies, e ∈ (sortDb (codes.foldl (processPack net') d)).allies)) := by
  constructor
  · have hstep : ∀ (d : Db) (code : String),
        NodupInv d → NodupInv (processPack net d code) := by
      intro d code hd
      simp only [processPack]
      exact foldl_preserves (fun b a hb => nodup_inv_player a hb) _ _
        (foldl_preserves (fun b a hb => nodup_inv_enc a hb) _ _ hd)
    have hall := foldl_preserves hstep ((fetchJson net.indexResp).map PackEntry.code)
      emptyDb ⟨List.nodup_nil, List.nodup_nil, List.nodup_nil,
        List.nodup_nil, List.nodup_nil⟩
    rw [run_eq_some h]
    refine ⟨?_, ?_, hall.2.2.1, hall.2.2.2.1, hall.2.2.2.2⟩
    · exact (((List.perm_insertionSort _ _).map Villain.name).nodup_iff).2 hall.1
    · exact (((List.perm_insertionSort _ _).map HpCard.name).nodup_iff).2 hall.2.1
  · intro net' d codes
    refine ⟨?_, ?_, ?_, ?_⟩
    · intro e he
      have hstep : ∀ (b : Db) (a : String),
          e ∈ b.heroes → e ∈ (processPack net' b a).heroes := by
        intro b a hb
        simp only [processPack]
        exact @foldl_preserves Db RawCard processPlayer (fun x => e ∈ x.heroes)
          (fun b' a' hb' => mem_heroes_player hb') _ _
          (@foldl_preserves Db RawCard processEnc (fun x => e ∈ x.heroes)
            (fun b' a' hb' => mem_heroes_enc hb') _ _ hb)
      have hfold := @foldl_preserves Db String (processPack net') (fun x => e ∈ x.heroes)
        hstep codes d he
      simp only [sortDb, List.mem_insertionSort]
      exact hfold
    · intro e he
      have hstep : ∀ (b : Db) (a : String),
          e ∈ b.side_schemes → e ∈ (processPack net' b a).side_schemes := by
        intro b a hb
        simp only [processPack]
        exact @foldl_preserves Db RawCard processPlayer (fun x => e ∈ x.side_schemes)
          (fun b' a' hb' => mem_side_player hb') _ _
          (@foldl_preserves Db RawCard processEnc (fun x => e ∈ x.side_schemes)
            (fun b' a' hb' => mem_side_enc hb') _ _ hb)
      exact @foldl_preserves Db String (processPack net') (fun x => e ∈ x.side_schemes)
        hstep codes d he
    · intro e he
      have hstep : ∀ (b : Db) (a : String),
          e ∈ b.minions → e ∈ (processPack net' b a).minions := by
        intro b a hb
        simp only [processPack]
        exact @foldl_preserves Db RawCard processPlayer (fun x => e ∈ x.minions)
          (fun b' a' hb' => mem_minions_player hb') _ _
          (@foldl_preserves Db RawCard processEnc (fun x => e ∈ x.minions)
            (fun b' a' hb' => mem_minions_enc hb') _ _ hb)
      exact @foldl_preserves Db String (processPack net') (fun x => e ∈ x.minions)
        hstep codes d he
    · intro e he
      have hstep : ∀ (b : Db) (a : String),
          e ∈ b.allies → e ∈ (processPack net' b a).allies := by
        intro b a hb
        simp only [processPack]
        exact @foldl_preserves Db RawCard processPlayer (fun x => e ∈ x.allies)
          (fun b' a' hb' => mem_allies_player hb') _ _
          (@foldl_preserves Db RawCard processEnc (fun x => e ∈ x.allies)
            (fun b' a' hb' => mem_allies_enc hb') _ _ hb)
      exact @foldl_preserves Db String (processPack net') (fun x => e ∈ x.allies)
        hstep codes d he

/-- Witness for C5 at the concrete one-pack network. -/
theorem claim_C5_witness :
    ∃ db, run netCore = some db ∧
      (db.villains.map Villain.name).Nodup
      ∧ (db.heroes.map HpCard.name).Nodup
      ∧ (db.side_schemes.map SideScheme.name).Nodup
      ∧ (db.minions.map HpCard.name).Nodup
      ∧ (db.allies.map HpCard.name).Nodup :=
  ⟨(run netCore).getD emptyDb, rfl, (claim_C5 netCore _ rfl).1⟩

/- The comparator relations of the final sort are total and transitive,
inherited from the linear order on strings. -/

instance : IsTotal Villain (fun a b => a.name ≤ b.name) :=
  ⟨fun a b => le_total a.name b.name⟩

instance : IsTrans Villain (fun a b => a.name ≤ b.name) :=
  ⟨fun _ _ _ h1 h2 => le_trans h1 h2⟩

instance : IsTotal HpCard (fun a b => a.name ≤ b.name) :=
  ⟨fun a b => le_total a.name b.name⟩

instance : IsTrans HpCard (fun a b => a.name ≤ b.name) :=
  ⟨fun _ _ _ h1 h2 => le_trans h1 h2⟩

instance : IsTotal Scheme (fun a b => a.code ≤ b.code) :=
  ⟨fun a b => le_total a.code b.code⟩

instance : IsTrans Scheme (fun a b => a.code ≤ b.code) :=
  ⟨fun _ _ _ h1 h2 => le_trans h1 h2⟩

theorem empty_string_le (s : String) : "" ≤ s :=
  String.le_iff_toList_le.mpr List.nil_le

/-- Claim C7: in the written artifact the villains and heroes collections
are sorted ascending by name and the schemes collection ascending by
code, an empty (or missing, modelled as empty) code sorting first; the
ordering relation holds for every pair of adjacent entries. -/
theorem claim_C7 (net : Network) (db : Db) (h : run net = some db) :
    List.Chain' (fun a b : Villain => a.name ≤ b.name) db.villains
  ∧ List.Chain' (fun a b : HpCard => a.name ≤ b.name) db.heroes
  ∧ List.Chain' (fun a b : Scheme => a.code ≤ b.code) db.schemes
  ∧ ∀ s ∈ db.schemes, ("" : String) ≤ s.code := by
  rw [run_eq_some h]
  exact ⟨(List.sorted_insertionSort _ _).chain',
    (List.sorted_insertionSort _ _).chain',
    (List.sorted_insertionSort _ _).chain',
    fun s _ => empty_string_le s.code⟩

/-- Witness for C7 at the concrete one-pack network. -/
theorem claim_C7_witness :
    ∃ db, run netCore = some db ∧
      List.Chain' (fun a b : Villain => a.name ≤ b.name) db.villains
    ∧ List.Chain' (fun a b : HpCard => a.name ≤ b.name) db.heroes
    ∧ List.Chain' (fun a b : Scheme => a.code ≤ b.code) db.schemes
    ∧ ∀ s ∈ db.schemes, ("" : String) ≤ s.code :=
  ⟨(run netCore).getD emptyDb, rfl, claim_C7 netCore _ rfl⟩

/- Identity fields of villain entries (name, code, set_code) are only
ever appended, never rewritten, across the whole pass. -/

/-- The identity triple of each villain entry, in order. -/
def identOf (l : List Villain) : List (String × String × JsVal) :=
  l.map fun v => (v.name, v.code, v.set_code)

theorem identOf_enc (db : Db) (c : RawCard) :
    ∃ r, identOf (processEnc db c).villains = identOf db.villains ++ r := by
  rcases processEnc_villains_cases db c with hv | ⟨hv, -⟩ | ⟨hv, -⟩ <;> rw [hv]
  · exact ⟨[], (List.append_nil _).symm⟩
  · refine ⟨[], ?_⟩
    rw [List.append_nil]
    exact map_updateFirst (fun v : Villain => (v.name, v.code, v.set_code))
      (fun v => decide (v.name = c.name))
      (fun v => { v with stages := goldenOf c.name }) (fun y _ => rfl) db.villains
  · exact ⟨_, List.map_append _ _ _⟩

theorem identOf_player (db : Db) (c : RawCard) :
    ∃ r, identOf (processPlayer db c).villains = identOf db.villains ++ r := by
  rw [processPlayer_villains]
  exact ⟨[], (List.append_nil _).symm⟩

theorem identOf_foldl {α : Type} {g : Db → α → Db}
    (hg : ∀ d a, ∃ r, identOf (g d a).villains = identOf d.villains ++ r) :
    ∀ (l : List α) (d : Db),
      ∃ r, identOf (l.foldl g d).villains = identOf d.villains ++ r
  | [], _ => ⟨[], (List.append_nil _).symm⟩
  | a :: l, d => by
    rcases hg d a with ⟨r1, h1⟩
    rcases identOf_foldl hg l (g d a) with ⟨r2, h2⟩
    exact ⟨r1 ++ r2, by rw [List.foldl_cons, h2, h1, List.append_assoc]⟩

/-- The villain entry the script builds for the colliding name. -/
def protoVillainEnt : Villain :=
  { name := "toString", code := "90001", set_code := .str "odd",
    stages := .inherited "toString" }

/-- A database already holding the colliding-name villain entry, as its
first occurrence would have created it. -/
def dbProtoName : Db := { emptyDb with villains := [protoVillainEnt] }

/-- Counterexample to claim C9 as stated: re-encountering the villain
name "toString" refreshes `stages` to the truthy inherited
`Object.prototype.toString` — a value that is neither an override-table
entry nor the fallback [15, 15, 15], because the name is absent from the
table and the prototype-chain hit skips the fallback. -/
theorem claim_C9_counterexample :
    VILLAIN_STATS.lookup "toString" = none
  ∧ ∃ v ∈ (processEnc dbProtoName toStringCard).villains,
      v.name = "toString"
      ∧ v.stages = StagesVal.inherited "toString"
      ∧ ∀ l : List Nat, v.stages ≠ StagesVal.arr l := by
  refine ⟨rfl, protoVillainEnt, by decide, rfl, rfl, ?_⟩
  intro l hl
  exact StagesVal.noConfusion hl

/-- Claim C9 (amended): re-encountering a villain name refreshes only
`stages`, to the value the golden-stats property access yields for that
name (the override entry verbatim, the fallback [15, 15, 15], or — when
the absent name collides with an `Object.prototype` property name — the
truthy inherited member); the entry's `code` and `set_code` stay those of
the occurrence that created it and no entry is added or dropped, and
across any further processing the identity triples of existing entries
are preserved in place (new ones only appended). -/
theorem claim_C9 (db : Db) (c : RawCard) (cards : List RawCard)
    (h1 : c.type_code = "villain")
    (h2 : db.villains.any (fun v => v.name = c.name) = true) :
    ((processEnc db c).villains.length = db.villains.length)
  ∧ (∀ v' ∈ (processEnc db c).villains, ∃ v ∈ db.villains,
        v'.name = v.name ∧ v'.code = v.code ∧ v'.set_code = v.set_code
        ∧ (v'.stages = v.stages ∨ (v'.name = c.name ∧ v'.stages = goldenOf c.name)))
  ∧ (∃ v' ∈ (processEnc db c).villains, v'.name = c.name ∧ v'.stages = goldenOf c.name)
  ∧ (∃ r, identOf ((c :: cards).foldl processEnc db).villains =
      identOf db.villains ++ r) := by
  have hv : (processEnc db c).villains =
      updateFirst (fun v => v.name = c.name)
        (fun v => { v with stages := goldenOf c.name }) db.villains := by
    unfold processEnc
    rw [if_pos h1, if_pos h2]
  refine ⟨?_, ?_, ?_, ?_⟩
  · rw [hv, length_updateFirst]
  · rw [hv]
    intro v' hv'
    rcases mem_updateFirst hv' with h' | ⟨y, hy, hpy, rfl⟩
    · exact ⟨v', h', rfl, rfl, rfl, Or.inl rfl⟩
    · exact ⟨y, hy, rfl, rfl, rfl, Or.inr ⟨of_decide_eq_true hpy, rfl⟩⟩
  · rw [hv]
    have hex : ∃ y ∈ db.villains, decide (y.name = c.name) = true := by
      rcases List.any_eq_true.1 h2 with ⟨y, hy, hpy⟩
      exact ⟨y, hy, hpy⟩
    rcases updateFirst_hit hex with ⟨z, hz, hpz, hmem⟩
    exact ⟨_, hmem, of_decide_eq_true hpz, rfl⟩
  · exact identOf_foldl (fun d a => identOf_enc d a) (c :: cards) db

/-- A database already holding the Rhino entry, for the C9 witness. -/
def dbRhino : Db :=
  { emptyDb with villains :=
      [{ name := "Rhino", code := "01001a", set_code := .str "rhino",
         stages := .arr [14, 15, 16] }] }

/-- Witness for C9: processing a second Rhino record against an existing
entry refreshes stages only. -/
theorem claim_C9_witness :
    ((processEnc dbRhino rhinoCard).villains.length = dbRhino.villains.length)
  ∧ (∀ v' ∈ (processEnc dbRhino rhinoCard).villains, ∃ v ∈ dbRhino.villains,
        v'.name = v.name ∧ v'.code = v.code ∧ v'.set_code = v.set_code
        ∧ (v'.stages = v.stages
          ∨ (v'.name = rhinoCard.name ∧ v'.stages = goldenOf rhinoCard.name)))
  ∧ (∃ v' ∈ (processEnc dbRhino rhinoCard).villains,
        v'.name = rhinoCard.name ∧ v'.stages = goldenOf rhinoCard.name)
  ∧ (∃ r, identOf ((rhinoCard :: []).foldl processEnc dbRhino).villains =
      identOf dbRhino.villains ++ r) :=
  claim_C9 dbRhino rhinoCard [] rfl (by decide)

end Marvel
